import Mathlib

/-!
Shallow embedding of `src/post.jsx` (the `HumanPoseEstimation` React
component): its UI state, the `estimatePose` inference adapter, the image
intake (`loadImages`), image selection (`handleImageSelect`), the canvas
renderer (`drawResults`, `drawKeypoints`, `drawSkeleton`, `drawSegment`,
`toTuple`) and the export action (`handleDownload`).

Modelling choices:
- JavaScript numbers (keypoint coordinates and confidence scores) are
  embedded as `Rat`; the component performs no arithmetic on them beyond
  exact comparisons against the constant 0.5, for which `Rat` and IEEE
  doubles agree.
- The external posenet library (`posenet.load`, `net.estimateSinglePose`,
  `posenet.getAdjacentKeyPoints`) is an opaque collaborator: it is
  parameterised as oracles.  A rejected promise is an `Except.error`.
- React state updates (`setX`) are modelled as functional record updates;
  an async handler yields the ordered list of states it passes through, so
  that temporal claims about intermediate states can be read off the trace.
- The 2D canvas context is modelled as the trace of drawing commands issued
  to it.
-/

/-- A JavaScript value holding a decoded image: either a real `Image`
element (identified by an id, with its natural width and height), or
`undefined` (what `images[index]` yields on an out-of-range index). -/
inductive JSImage where
  | img (id : Nat) (width : Nat) (height : Nat)
  | undef
deriving DecidableEq, Repr

/-- The `width` read off a decoded image (0 stands in for the `undefined`
case, which real JS would fault on; no modelled path reads it). -/
def JSImage.widthOf : JSImage → Nat
  | .img _ w _ => w
  | .undef => 0

/-- The `height` read off a decoded image. -/
def JSImage.heightOf : JSImage → Nat
  | .img _ _ h => h
  | .undef => 0

/-- A keypoint position `{x, y}` as produced by posenet. -/
structure Position where
  x : Rat
  y : Rat
deriving DecidableEq, Repr

/-- A posenet keypoint: a body-part label, a 2D position and a confidence
score in [0,1]. -/
structure Keypoint where
  part : String
  position : Position
  score : Rat
deriving DecidableEq, Repr

/-- A single-subject pose: the ordered keypoint list returned by
`net.estimateSinglePose`. -/
structure Pose where
  keypoints : List Keypoint
deriving DecidableEq, Repr

/-- The component's React state hooks: `images`, `currentImageIndex`,
`poses`, `isLoading`, `error`. -/
structure UIState where
  images : List JSImage
  currentImageIndex : Nat
  poses : List Pose
  isLoading : Bool
  error : Option String
deriving DecidableEq, Repr

/-- The initial hook values: `useState([])`, `useState(0)`, `useState([])`,
`useState(false)`, `useState(null)`. -/
def initState : UIState :=
  { images := [], currentImageIndex := 0, poses := [], isLoading := false,
    error := none }

/-- The `inputResolution` record passed to `posenet.load`. -/
structure InputResolution where
  width : Nat
  height : Nat
deriving DecidableEq, Repr

/-- The configuration object passed to `posenet.load`. -/
structure PoseNetConfig where
  inputResolution : InputResolution
  scale : Rat
deriving DecidableEq, Repr

/-- The literal configuration at src/post.jsx lines 40-43:
`{ inputResolution: { width: 640, height: 480 }, scale: 0.5 }`. -/
def posenetLoadConfig : PoseNetConfig :=
  { inputResolution := { width := 640, height := 480 }, scale := 1/2 }

/-- An opaque handle to a loaded posenet model (`net`). -/
abbrev Net := Nat

/-- Result of `await posenet.load(config)`: either a model handle or a
rejection (the error value is the logged cause). -/
abbrev LoadOracle := PoseNetConfig → Except String Net

/-- Result of `await net.estimateSinglePose(img)`: either a pose or a
rejection. -/
abbrev EstimateOracle := Net → JSImage → Except String Pose

/-- The external topology helper `posenet.getAdjacentKeyPoints(keypoints,
minConfidence)`, returning adjacent keypoint pairs. -/
abbrev AdjacentOracle := List Keypoint → Rat → List (Keypoint × Keypoint)

/-- The generic user-visible message set at src/post.jsx line 49. -/
def estimatePoseErrorMessage : String :=
  "Failed to estimate pose. Please try another image."

/-- An observable call made to the external posenet library. -/
inductive ExtCall where
  | load (cfg : PoseNetConfig)
  | estimateSinglePose (net : Net) (img : JSImage)
deriving DecidableEq, Repr

/-- What one run of an async handler produced: the ordered list of states
it passed through (each `setX` call contributes one state; the last entry
is the state after the handler returns), the external posenet calls it
made, and the `drawResults(img, poses)` invocation when one occurred. -/
structure HandlerRun where
  states : List UIState
  calls : List ExtCall
  rendered : Option (JSImage × List Pose)
deriving DecidableEq, Repr

/-- The final state of a handler run (the state after the last `setX`);
`s` is the state the run started from, returned if the run set nothing. -/
def HandlerRun.final (r : HandlerRun) (s : UIState) : UIState :=
  r.states.getLastD s

/-- `estimatePose` (src/post.jsx lines 36-52):
```
setIsLoading(true);
setError(null);
try {
  const net = await posenet.load({inputResolution: {width: 640, height: 480}, scale: 0.5});
  const pose = await net.estimateSinglePose(img);
  setPoses([pose]);
  drawResults(img, [pose]);
} catch (err) { console.error(...); setError('Failed to estimate pose. Please try another image.'); }
setIsLoading(false);
```
The `console.error` log is not modelled. -/
def estimatePose (load : LoadOracle) (estimate : EstimateOracle)
    (img : JSImage) (s : UIState) : HandlerRun :=
  let s1 := { s with isLoading := true }
  let s2 := { s1 with error := none }
  match load posenetLoadConfig with
  | Except.error _ =>
      let s3 := { s2 with error := some estimatePoseErrorMessage }
      let s4 := { s3 with isLoading := false }
      { states := [s1, s2, s3, s4],
        calls := [ExtCall.load posenetLoadConfig],
        rendered := none }
  | Except.ok net =>
      match estimate net img with
      | Except.error _ =>
          let s3 := { s2 with error := some estimatePoseErrorMessage }
          let s4 := { s3 with isLoading := false }
          { states := [s1, s2, s3, s4],
            calls := [ExtCall.load posenetLoadConfig,
                      ExtCall.estimateSinglePose net img],
            rendered := none }
      | Except.ok pose =>
          let s3 := { s2 with poses := [pose] }
          let s4 := { s3 with isLoading := false }
          { states := [s1, s2, s3, s4],
            calls := [ExtCall.load posenetLoadConfig,
                      ExtCall.estimateSinglePose net img],
            rendered := some (img, [pose]) }

/-- The pose the external library would deliver for `img` through the
`estimatePose` call chain: `some pose` when `posenet.load` resolves and
`net.estimateSinglePose(img)` resolves with `pose`, `none` when either
awaited promise rejects. -/
def expectedPose (load : LoadOracle) (estimate : EstimateOracle)
    (img : JSImage) : Option Pose :=
  match load posenetLoadConfig with
  | Except.error _ => none
  | Except.ok net =>
      match estimate net img with
      | Except.error _ => none
      | Except.ok pose => some pose

/-- `handleImageSelect` (src/post.jsx lines 106-110):
`setCurrentImageIndex(index); estimatePose(images[index]);`.
In JS, `images[index]` is `undefined` when `index` is out of range, hence
`getD i JSImage.undef`. -/
def handleImageSelect (load : LoadOracle) (estimate : EstimateOracle)
    (i : Nat) (s : UIState) : HandlerRun :=
  let s1 := { s with currentImageIndex := i }
  let r := estimatePose load estimate (s.images.getD i JSImage.undef) s1
  { r with states := s1 :: r.states }

/-- The `Promise.all(readers).then(...)` continuation of `loadImages`
(src/post.jsx lines 28-33), entered once every selected file has decoded:
`setImages(loadedImages); if (loadedImages.length > 0) estimatePose(loadedImages[0]);`. -/
def loadImagesAllDecoded (load : LoadOracle) (estimate : EstimateOracle)
    (loadedImages : List JSImage) (s : UIState) : HandlerRun :=
  let s1 := { s with images := loadedImages }
  if loadedImages.length > 0 then
    let r := estimatePose load estimate (loadedImages.getD 0 JSImage.undef) s1
    { r with states := s1 :: r.states }
  else
    { states := [s1], calls := [], rendered := none }

/-- Timing model of the asynchronous decode phase of `loadImages`
(src/post.jsx lines 14-33): reader `k` resolves its promise when file `k`
finishes decoding, at time `decodeTimes[k]`; `Promise.all(readers)` resolves
— and only then is `estimatePose(loadedImages[0])` triggered — once every
reader has resolved, i.e. at the maximum of the decode completion times. -/
def loadImagesInferTriggerTime (decodeTimes : List Nat) : Nat :=
  decodeTimes.foldl Nat.max 0

/-- The `useEffect` on `preloadedImage` (src/post.jsx lines 121-126):
`setImages([preloadedImage]); estimatePose(preloadedImage);`. -/
def preloadedEffect (load : LoadOracle) (estimate : EstimateOracle)
    (img : JSImage) (s : UIState) : HandlerRun :=
  let s1 := { s with images := [img] }
  let r := estimatePose load estimate img s1
  { r with states := s1 :: r.states }

/-- The exact IEEE-754 double value of JavaScript `Math.PI`,
884279719003555 * 2 ^ (-48), as a rational. -/
def jsMathPi : Rat := 884279719003555 / 281474976710656

/-- A drawing command issued to the canvas 2D context.  Style assignments
(`fillStyle`, `lineWidth`, `strokeStyle`) are recorded as commands. -/
inductive DrawCmd where
  | drawImage (img : JSImage) (dx dy : Rat)
  | beginPath
  | arc (x y radius startAngle endAngle : Rat)
  | setFillStyle (color : String)
  | fill
  | moveTo (x y : Rat)
  | lineTo (x y : Rat)
  | setLineWidth (w : Rat)
  | setStrokeStyle (color : String)
  | stroke
deriving DecidableEq, Repr

/-- The canvas element together with its 2D context, modelled as its size
attributes plus the trace of commands issued to the context. -/
structure Canvas where
  width : Nat
  height : Nat
  cmds : List DrawCmd
deriving DecidableEq, Repr

/-- `drawKeypoints` (src/post.jsx lines 67-77): for each keypoint with
`score > minConfidence`, draw a filled red circle of radius 5 at its
`(x, y)` position (`ctx.arc(x, y, 5, 0, 2 * Math.PI)`). -/
def drawKeypoints (keypoints : List Keypoint) (minConfidence : Rat)
    (ctx : Canvas) : Canvas :=
  keypoints.foldl
    (fun ctx keypoint =>
      if keypoint.score > minConfidence then
        { ctx with cmds := ctx.cmds ++
            [DrawCmd.beginPath,
             DrawCmd.arc keypoint.position.x keypoint.position.y 5 0 (2 * jsMathPi),
             DrawCmd.setFillStyle "red",
             DrawCmd.fill] }
      else ctx)
    ctx

/-- `toTuple` (src/post.jsx line 100): `({y, x}) => [y, x]` — note the
swap: the first tuple component is `y`. -/
def toTuple (p : Position) : Rat × Rat := (p.y, p.x)

/-- `drawSegment` (src/post.jsx lines 91-98): destructures its tuple
arguments as `[ay, ax]` and `[by, bx]`, then `moveTo(ax, ay)`,
`lineTo(bx, by)`, width 2, stroke in `color`. -/
def drawSegment (a b : Rat × Rat) (color : String) (ctx : Canvas) : Canvas :=
  let (ay, ax) := a
  let (bY, bX) := b
  { ctx with cmds := ctx.cmds ++
      [DrawCmd.beginPath,
       DrawCmd.moveTo ax ay,
       DrawCmd.lineTo bX bY,
       DrawCmd.setLineWidth 2,
       DrawCmd.setStrokeStyle color,
       DrawCmd.stroke] }

/-- `drawSkeleton` (src/post.jsx lines 79-89): for each adjacent keypoint
pair returned by `posenet.getAdjacentKeyPoints(keypoints, minConfidence)`,
draw a green segment between the two positions (run through `toTuple`). -/
def drawSkeleton (adjacent : AdjacentOracle) (keypoints : List Keypoint)
    (minConfidence : Rat) (ctx : Canvas) : Canvas :=
  (adjacent keypoints minConfidence).foldl
    (fun ctx pair =>
      drawSegment (toTuple pair.1.position) (toTuple pair.2.position)
        "green" ctx)
    ctx

/-- `drawResults` (src/post.jsx lines 54-65): size the canvas to the image,
draw the image at (0, 0), then for each pose draw its keypoints and its
skeleton, both at threshold 0.5. -/
def drawResults (adjacent : AdjacentOracle) (img : JSImage)
    (poses : List Pose) (ctx : Canvas) : Canvas :=
  let ctx := { ctx with
                 width := img.widthOf
                 height := img.heightOf
                 cmds := ctx.cmds ++ [DrawCmd.drawImage img 0 0] }
  poses.foldl
    (fun ctx p =>
      drawSkeleton adjacent p.keypoints (1/2)
        (drawKeypoints p.keypoints (1/2) ctx))
    ctx

/-- The centre position of a filled keypoint marker (`arc` command), if
the command is one. -/
def arcCentre : DrawCmd → Option (Rat × Rat)
  | DrawCmd.arc x y _ _ _ => some (x, y)
  | _ => none

/-- The centre positions of the filled keypoint markers (`arc` commands)
present on a canvas. -/
def arcMarkers (ctx : Canvas) : List (Rat × Rat) :=
  ctx.cmds.filterMap arcCentre

/-- The anchor element fabricated by `handleDownload`. -/
structure AnchorDownload where
  download : String
  href : String
  clicked : Bool
deriving DecidableEq, Repr

/-- JavaScript `String.prototype.replace` with a string pattern: replaces
only the first occurrence of `pat` (here `pat` is never empty). -/
def jsReplaceFirst (s pat rep : String) : String :=
  match s.splitOn pat with
  | [] => s
  | [_] => s
  | x :: rest => x ++ rep ++ String.intercalate pat rest

/-- `handleDownload` (src/post.jsx lines 112-119): serialize the canvas
(`toDataURL("image/png")` is the opaque `dataUrl` argument), rewrite the
MIME type, and click an anchor named
`pose_estimation_${currentImageIndex + 1}.png`. -/
def handleDownload (dataUrl : String) (s : UIState) : AnchorDownload :=
  let image := jsReplaceFirst dataUrl "image/png" "image/octet-stream"
  let n := s.currentImageIndex + 1
  { download := s!"pose_estimation_{n}.png",
    href := image,
    clicked := true }

/-- An externally triggered event of the component, as modelled: the
`Promise.all` continuation of a file upload, a selection from the
drop-down, or the preloaded-image effect.  Events run to completion in
order (the sequential, race-free schedule). -/
inductive UIEvent where
  | filesLoaded (imgs : List JSImage)
  | selectImage (i : Nat)
  | preloaded (img : JSImage)
deriving DecidableEq, Repr

/-- The handler run an event performs from state `s`. -/
def stepEvent (load : LoadOracle) (estimate : EstimateOracle)
    (s : UIState) : UIEvent → HandlerRun
  | UIEvent.filesLoaded imgs => loadImagesAllDecoded load estimate imgs s
  | UIEvent.selectImage i => handleImageSelect load estimate i s
  | UIEvent.preloaded img => preloadedEffect load estimate img s

/-- All states the component passes through while the events fire in
sequence from state `s` (excluding `s` itself). -/
def runStates (load : LoadOracle) (estimate : EstimateOracle)
    (s : UIState) : List UIEvent → List UIState
  | [] => []
  | e :: es =>
      let r := stepEvent load estimate s e
      r.states ++ runStates load estimate (r.final s) es

/-- Every state reachable from the initial hook state under the event
sequence `evs`. -/
def reachableStates (load : LoadOracle) (estimate : EstimateOracle)
    (evs : List UIEvent) : List UIState :=
  initState :: runStates load estimate initState evs

/-- The displayed-pose invariant exactly as the spec states it (claim-side
formalisation, to be compared with the behaviour of the embedded code):
the pose result corresponds to the currently selected image index (an
empty pose result is allowed to correspond trivially), or the pose result
is empty while inference is in flight. -/
def displayedPoseInvariant (load : LoadOracle) (estimate : EstimateOracle)
    (s : UIState) : Prop :=
  (s.poses = [] ∨
    (expectedPose load estimate
        (s.images.getD s.currentImageIndex JSImage.undef)).map (fun p => [p]) =
      some s.poses) ∨
  (s.isLoading = true ∧ s.poses = [])

instance (load : LoadOracle) (estimate : EstimateOracle) (s : UIState) :
    Decidable (displayedPoseInvariant load estimate s) := by
  unfold displayedPoseInvariant
  infer_instance

/-- A concrete load oracle for witnesses: `posenet.load` always resolves
with model handle 0. -/
def loadW : LoadOracle := fun _ => Except.ok 0

/-- A concrete estimate oracle for witnesses: a real image with id `k`
yields a one-keypoint pose at x-coordinate `k`; estimating on `undefined`
rejects. -/
def estW : EstimateOracle := fun _ img =>
  match img with
  | JSImage.img k _ _ =>
      Except.ok { keypoints :=
        [{ part := "nose", position := { x := (k : Rat), y := 0 }, score := 1 }] }
  | JSImage.undef => Except.error "Cannot read properties of undefined"

/-- A load oracle that always rejects, for failure-path witnesses. -/
def loadFailW : LoadOracle := fun _ => Except.error "network error"

/-- A concrete adjacency oracle for witnesses: consecutive keypoints whose
scores both exceed the threshold are adjacent. -/
def adjW : AdjacentOracle := fun keypoints minConfidence =>
  (keypoints.zip keypoints.tail).filter
    (fun pair =>
      decide (minConfidence < pair.1.score) && decide (minConfidence < pair.2.score))

/-! ## Theorems -/

/-- C1: the error message is set (non-null) after `estimatePose` completes
if and only if the awaited inference chain rejects; on any rejection the
error state is the generic message
"Failed to estimate pose. Please try another image.", and on successful
resolution the error state is null. -/
theorem estimatePose_error_iff_reject (load : LoadOracle)
    (estimate : EstimateOracle) (img : JSImage) (s : UIState) :
    (((estimatePose load estimate img s).final s).error ≠ none ↔
        expectedPose load estimate img = none) ∧
    (expectedPose load estimate img = none →
      ((estimatePose load estimate img s).final s).error =
        some estimatePoseErrorMessage) ∧
    (expectedPose load estimate img ≠ none →
      ((estimatePose load estimate img s).final s).error = none) := by
  cases hl : load posenetLoadConfig with
  | error e =>
      simp [estimatePose, expectedPose, HandlerRun.final, hl]
  | ok net =>
      cases he : estimate net img with
      | error e =>
          simp [estimatePose, expectedPose, HandlerRun.final, hl, he]
      | ok pose =>
          simp [estimatePose, expectedPose, HandlerRun.final, hl, he]

/-- C4: in every `estimatePose` run, the loading flag is set to true as the
very first state change (before the model call), every intermediate state
keeps it true, and the final state (after the awaited call resolved, on the
success path and the failure path alike) has it false. -/
theorem estimatePose_loading_strictly_between (load : LoadOracle)
    (estimate : EstimateOracle) (img : JSImage) (s : UIState) :
    ((estimatePose load estimate img s).states.head? =
        some { s with isLoading := true }) ∧
    (∀ t ∈ (estimatePose load estimate img s).states.dropLast,
        t.isLoading = true) ∧
    ((estimatePose load estimate img s).final s).isLoading = false := by
  cases hl : load posenetLoadConfig with
  | error e =>
      refine ⟨?_, ?_, ?_⟩ <;>
        simp [estimatePose, HandlerRun.final, hl]
  | ok net =>
      cases he : estimate net img with
      | error e =>
          refine ⟨?_, ?_, ?_⟩ <;>
            simp [estimatePose, HandlerRun.final, hl, he]
      | ok pose =>
          refine ⟨?_, ?_, ?_⟩ <;>
            simp [estimatePose, HandlerRun.final, hl, he]

/-- C9: when the awaited inference chain rejects, `estimatePose` leaves the
poses state (and the images and selected index) unchanged: the final state
differs from the initial one only in the error message and loading flag. -/
theorem estimatePose_error_leaves_poses (load : LoadOracle)
    (estimate : EstimateOracle) (img : JSImage) (s : UIState)
    (h : expectedPose load estimate img = none) :
    (estimatePose load estimate img s).final s =
      { s with error := some estimatePoseErrorMessage, isLoading := false } := by
  cases hl : load posenetLoadConfig with
  | error e =>
      simp [estimatePose, HandlerRun.final, hl]
  | ok net =>
      cases he : estimate net img with
      | error e =>
          simp [estimatePose, HandlerRun.final, hl, he]
      | ok pose =>
          exfalso
          simp [expectedPose, hl, he] at h

/-- Witness for C9: with an always-rejecting load oracle, running
`estimatePose` from the initial state on a concrete image ends in the
initial state with the generic error set and loading cleared. -/
theorem estimatePose_error_leaves_poses_witness :
    (estimatePose loadFailW estW (JSImage.img 0 8 6) initState).final initState =
      { initState with error := some estimatePoseErrorMessage,
                       isLoading := false } :=
  estimatePose_error_leaves_poses loadFailW estW (JSImage.img 0 8 6) initState
    (by decide)

/-- C7: every `estimatePose` call first invokes `posenet.load` with the
fixed configuration (inputResolution 640x480, scale 0.5) — a fresh load
per call, nothing cached — and, when the load resolves, follows it with
exactly one `estimateSinglePose` request for the given image. -/
theorem estimatePose_calls_load_each_time (load : LoadOracle)
    (estimate : EstimateOracle) (img : JSImage) (s : UIState) :
    ((estimatePose load estimate img s).calls.head? =
        some (ExtCall.load posenetLoadConfig)) ∧
    posenetLoadConfig =
      { inputResolution := { width := 640, height := 480 }, scale := 1/2 } ∧
    (∀ net, load posenetLoadConfig = Except.ok net →
      (estimatePose load estimate img s).calls =
        [ExtCall.load posenetLoadConfig,
         ExtCall.estimateSinglePose net img]) := by
  refine ⟨?_, rfl, ?_⟩
  · cases hl : load posenetLoadConfig with
    | error e => simp [estimatePose, hl]
    | ok net =>
        cases he : estimate net img with
        | error e => simp [estimatePose, hl, he]
        | ok pose => simp [estimatePose, hl, he]
  · intro net hl
    cases he : estimate net img with
    | error e => simp [estimatePose, hl, he]
    | ok pose => simp [estimatePose, hl, he]

/-- Witness for C7: the concrete oracles make one load call followed by one
single-pose request. -/
theorem estimatePose_calls_load_each_time_witness :
    ((estimatePose loadW estW (JSImage.img 2 8 6) initState).calls.head? =
        some (ExtCall.load posenetLoadConfig)) ∧
    (estimatePose loadW estW (JSImage.img 2 8 6) initState).calls =
      [ExtCall.load posenetLoadConfig,
       ExtCall.estimateSinglePose 0 (JSImage.img 2 8 6)] :=
  ⟨(estimatePose_calls_load_each_time loadW estW (JSImage.img 2 8 6)
      initState).1,
   (estimatePose_calls_load_each_time loadW estW (JSImage.img 2 8 6)
      initState).2.2 0 rfl⟩

/-- Witness for C1: on a rejecting load the final error is the generic
message; on a resolving chain it is null. -/
theorem estimatePose_error_iff_reject_witness :
    ((estimatePose loadFailW estW (JSImage.img 1 8 6) initState).final
        initState).error = some estimatePoseErrorMessage ∧
    ((estimatePose loadW estW (JSImage.img 1 8 6) initState).final
        initState).error = none :=
  ⟨(estimatePose_error_iff_reject loadFailW estW (JSImage.img 1 8 6)
      initState).2.1 (by decide),
   (estimatePose_error_iff_reject loadW estW (JSImage.img 1 8 6)
      initState).2.2 (by decide)⟩

/-- Witness for C4: on the concrete oracles the first state change turns
the loading flag on and the final state has it off. -/
theorem estimatePose_loading_strictly_between_witness :
    ((estimatePose loadW estW (JSImage.img 1 8 6) initState).states.head? =
        some { initState with isLoading := true }) ∧
    ((estimatePose loadW estW (JSImage.img 1 8 6) initState).final
        initState).isLoading = false :=
  ⟨(estimatePose_loading_strictly_between loadW estW (JSImage.img 1 8 6)
      initState).1,
   (estimatePose_loading_strictly_between loadW estW (JSImage.img 1 8 6)
      initState).2.2⟩

/-- C8: for every canvas serialization and every state, the export anchor's
generated filename is exactly `pose_estimation_` followed by the successor
of the zero-based selected index and `.png`, and the anchor is clicked. -/
theorem handleDownload_filename (dataUrl : String) (s : UIState) :
    (handleDownload dataUrl s).download =
      "pose_estimation_" ++ toString (s.currentImageIndex + 1) ++ ".png" ∧
    (handleDownload dataUrl s).clicked = true := by
  refine ⟨?_, rfl⟩
  simp only [handleDownload]
  rfl


/-- The drawing commands `drawSegment` issues for one segment between two
`toTuple`-encoded positions. -/
def segmentCmds (p q : Position) : List DrawCmd :=
  [DrawCmd.beginPath,
   DrawCmd.moveTo p.x p.y,
   DrawCmd.lineTo q.x q.y,
   DrawCmd.setLineWidth 2,
   DrawCmd.setStrokeStyle "green",
   DrawCmd.stroke]

theorem drawSkeleton_fold_cmds (ps : List (Keypoint × Keypoint))
    (ctx : Canvas) :
    (ps.foldl
        (fun ctx pair =>
          drawSegment (toTuple pair.1.position) (toTuple pair.2.position)
            "green" ctx)
        ctx).cmds =
      ctx.cmds ++
        ps.flatMap (fun pair => segmentCmds pair.1.position pair.2.position) := by
  induction ps generalizing ctx with
  | nil => simp
  | cons p ps ih =>
      rw [List.foldl_cons, ih]
      simp [drawSegment, toTuple, segmentCmds, List.flatMap_cons]

/-- C10: the coordinate swap `toTuple` performs (`[y, x]`) is exactly
undone by `drawSegment`'s destructuring (`[ay, ax]`): for every adjacent
pair produced by the topology helper, the skeleton segment's `moveTo` and
`lineTo` receive the keypoints' original `(x, y)` positions in the correct
order. -/
theorem drawSkeleton_segment_endpoints (adjacent : AdjacentOracle)
    (keypoints : List Keypoint) (minConfidence : Rat) (ctx : Canvas) :
    (drawSkeleton adjacent keypoints minConfidence ctx).cmds =
      ctx.cmds ++
        (adjacent keypoints minConfidence).flatMap
          (fun pair =>
            [DrawCmd.beginPath,
             DrawCmd.moveTo pair.1.position.x pair.1.position.y,
             DrawCmd.lineTo pair.2.position.x pair.2.position.y,
             DrawCmd.setLineWidth 2,
             DrawCmd.setStrokeStyle "green",
             DrawCmd.stroke]) := by
  rw [drawSkeleton, drawSkeleton_fold_cmds]
  rfl

theorem segmentCmds_no_arc (ps : List (Keypoint × Keypoint)) :
    (ps.flatMap
        (fun pair => segmentCmds pair.1.position pair.2.position)).filterMap
      arcCentre = [] := by
  induction ps with
  | nil => rfl
  | cons p ps ih =>
      rw [List.flatMap_cons, List.filterMap_append, ih, List.append_nil]
      rfl

theorem arcMarkers_drawSkeleton (adjacent : AdjacentOracle)
    (keypoints : List Keypoint) (minConfidence : Rat) (ctx : Canvas) :
    arcMarkers (drawSkeleton adjacent keypoints minConfidence ctx) =
      arcMarkers ctx := by
  rw [arcMarkers, drawSkeleton, drawSkeleton_fold_cmds,
    List.filterMap_append, segmentCmds_no_arc, List.append_nil]
  rfl

theorem arcMarkers_drawKeypoints (keypoints : List Keypoint)
    (minConfidence : Rat) (ctx : Canvas) :
    arcMarkers (drawKeypoints keypoints minConfidence ctx) =
      arcMarkers ctx ++
        (keypoints.filter (fun k => decide (k.score > minConfidence))).map
          (fun k => (k.position.x, k.position.y)) := by
  induction keypoints generalizing ctx with
  | nil => simp [drawKeypoints]
  | cons k ks ih =>
      simp only [drawKeypoints] at ih ⊢
      rw [List.foldl_cons]
      by_cases h : k.score > minConfidence
      · rw [if_pos h, ih]
        simp [arcMarkers, List.filterMap_append, arcCentre,
          List.filter_cons, h]
      · rw [if_neg h, ih]
        simp [List.filter_cons, h]

/-- C3: the renderer draws a filled marker for exactly the keypoints whose
confidence is strictly greater than 0.5 — the marker centres are precisely
the positions of those keypoints, in order — so on a fresh canvas the
rendered marker count equals the number of keypoints with confidence
above 0.5. -/
theorem drawResults_markers (adjacent : AdjacentOracle) (img : JSImage)
    (pose : Pose) (ctx : Canvas) :
    (arcMarkers (drawResults adjacent img [pose] ctx) =
      arcMarkers ctx ++
        (pose.keypoints.filter (fun k => decide (k.score > (1 : Rat)/2))).map
          (fun k => (k.position.x, k.position.y))) ∧
    (arcMarkers
        (drawResults adjacent img [pose]
          { width := 0, height := 0, cmds := [] })).length =
      (pose.keypoints.filter
          (fun k => decide (k.score > (1 : Rat)/2))).length := by
  have main : ∀ c : Canvas,
      arcMarkers (drawResults adjacent img [pose] c) =
        arcMarkers c ++
          (pose.keypoints.filter (fun k => decide (k.score > (1 : Rat)/2))).map
            (fun k => (k.position.x, k.position.y)) := by
    intro c
    rw [drawResults]
    simp only [List.foldl_cons, List.foldl_nil]
    rw [arcMarkers_drawSkeleton, arcMarkers_drawKeypoints]
    simp [arcMarkers, List.filterMap_append, arcCentre]
  refine ⟨main ctx, ?_⟩
  rw [main { width := 0, height := 0, cmds := [] }]
  simp [arcMarkers]

/-- C5: selecting an in-range index `i` sets the current image index to
`i`, and when the triggered inference resolves successfully (no other
inference interleaving, as in the sequential event model), the final pose
state holds exactly the pose estimated for image `i`. -/
theorem handleImageSelect_success (load : LoadOracle)
    (estimate : EstimateOracle) (s : UIState) (i : Nat) (pose : Pose)
    (_hi : i < s.images.length)
    (hp : expectedPose load estimate (s.images.getD i JSImage.undef) =
      some pose) :
    (((handleImageSelect load estimate i s).final s).currentImageIndex = i) ∧
    (((handleImageSelect load estimate i s).final s).poses = [pose]) ∧
    (((handleImageSelect load estimate i s).final s).isLoading = false) ∧
    (((handleImageSelect load estimate i s).final s).error = none) := by
  cases hl : load posenetLoadConfig with
  | error e =>
      simp only [expectedPose, hl] at hp
      exact Option.noConfusion hp
  | ok net =>
      cases he : estimate net (s.images.getD i JSImage.undef) with
      | error e =>
          simp only [expectedPose, hl, he] at hp
          exact Option.noConfusion hp
      | ok p =>
          simp only [expectedPose, hl, he, Option.some.injEq] at hp
          subst hp
          simp only [handleImageSelect, estimatePose, HandlerRun.final, hl, he]
          exact ⟨rfl, rfl, rfl, rfl⟩

/-- Witness for C5: selecting index 1 of a two-image list under the
concrete oracles ends with index 1 selected and the pose estimated for
image 1. -/
theorem handleImageSelect_success_witness :
    (((handleImageSelect loadW estW 1
          { initState with
              images := [JSImage.img 0 8 6, JSImage.img 1 8 6] }).final
        { initState with
            images := [JSImage.img 0 8 6, JSImage.img 1 8 6] }).currentImageIndex
        = 1) ∧
    (((handleImageSelect loadW estW 1
          { initState with
              images := [JSImage.img 0 8 6, JSImage.img 1 8 6] }).final
        { initState with
            images := [JSImage.img 0 8 6, JSImage.img 1 8 6] }).poses =
      [{ keypoints :=
          [{ part := "nose", position := { x := 1, y := 0 }, score := 1 }] }]) :=
  ⟨(handleImageSelect_success loadW estW
      { initState with images := [JSImage.img 0 8 6, JSImage.img 1 8 6] } 1
      { keypoints :=
          [{ part := "nose", position := { x := 1, y := 0 }, score := 1 }] }
      (by decide) (by decide)).1,
   (handleImageSelect_success loadW estW
      { initState with images := [JSImage.img 0 8 6, JSImage.img 1 8 6] } 1
      { keypoints :=
          [{ part := "nose", position := { x := 1, y := 0 }, score := 1 }] }
      (by decide) (by decide)).2.1⟩

/-- Counterexample for C6: with two selected files whose decodes complete
at times 3 and 7, the `Promise.all` continuation — and with it the
automatic inference on the first image — runs at time 7, the completion of
the last decode, not at time 3, the completion of the first file's decode
as the claim states. -/
theorem loadImages_trigger_not_first_decode :
    loadImagesInferTriggerTime [3, 7] = 7 ∧
    loadImagesInferTriggerTime [3, 7] ≠ 3 := by
  decide

/-- C6 (amended): when the user selects one or more files, inference for
the first image is automatically triggered once all the files' decodes
complete (the `Promise.all` continuation): the continuation immediately
calls `posenet.load`, and when the load resolves it requests a pose for
the first decoded image. -/
theorem loadImages_triggers_inference_first_image (load : LoadOracle)
    (estimate : EstimateOracle) (img0 : JSImage) (rest : List JSImage)
    (s : UIState) :
    ((loadImagesAllDecoded load estimate (img0 :: rest) s).calls.head? =
        some (ExtCall.load posenetLoadConfig)) ∧
    (∀ net, load posenetLoadConfig = Except.ok net →
      ExtCall.estimateSinglePose net img0 ∈
        (loadImagesAllDecoded load estimate (img0 :: rest) s).calls) := by
  constructor
  · cases hl : load posenetLoadConfig with
    | error e => simp [loadImagesAllDecoded, estimatePose, hl]
    | ok net =>
        cases he : estimate net img0 with
        | error e => simp [loadImagesAllDecoded, estimatePose, hl, he]
        | ok pose => simp [loadImagesAllDecoded, estimatePose, hl, he]
  · intro net hl
    cases he : estimate net img0 with
    | error e => simp [loadImagesAllDecoded, estimatePose, hl, he]
    | ok pose => simp [loadImagesAllDecoded, estimatePose, hl, he]

/-- Witness for the amended C6: under the concrete oracles, the upload
continuation for two images loads the model and requests a pose for the
first image. -/
theorem loadImages_triggers_inference_first_image_witness :
    ((loadImagesAllDecoded loadW estW
          [JSImage.img 4 8 6, JSImage.img 5 8 6] initState).calls.head? =
        some (ExtCall.load posenetLoadConfig)) ∧
    ExtCall.estimateSinglePose 0 (JSImage.img 4 8 6) ∈
      (loadImagesAllDecoded loadW estW
          [JSImage.img 4 8 6, JSImage.img 5 8 6] initState).calls :=
  ⟨(loadImages_triggers_inference_first_image loadW estW (JSImage.img 4 8 6)
      [JSImage.img 5 8 6] initState).1,
   (loadImages_triggers_inference_first_image loadW estW (JSImage.img 4 8 6)
      [JSImage.img 5 8 6] initState).2 0 rfl⟩

theorem getLastD_eq_self_or_mem {α : Type} (l : List α) (d : α) :
    l.getLastD d = d ∨ l.getLastD d ∈ l := by
  cases l with
  | nil => exact Or.inl rfl
  | cons a as =>
      right
      rw [List.getLastD_cons]
      induction as generalizing a with
      | nil => exact List.mem_singleton.mpr rfl
      | cons b bs ih =>
          rw [List.getLastD_cons]
          exact List.mem_cons_of_mem a (ih b)

/-- Poses seen inside one `estimatePose` run: every intermediate state
either still holds the caller's poses or holds exactly the single pose the
inference chain delivered. -/
theorem estimatePose_states_poses (load : LoadOracle)
    (estimate : EstimateOracle) (img : JSImage) (s : UIState) :
    ∀ t ∈ (estimatePose load estimate img s).states,
      t.poses = s.poses ∨
        ∃ pose, expectedPose load estimate img = some pose ∧
          t.poses = [pose] := by
  intro t ht
  cases hl : load posenetLoadConfig with
  | error e =>
      simp only [estimatePose, hl, List.mem_cons, List.not_mem_nil,
        or_false] at ht
      rcases ht with rfl | rfl | rfl | rfl <;> exact Or.inl rfl
  | ok net =>
      cases he : estimate net img with
      | error e =>
          simp only [estimatePose, hl, he, List.mem_cons, List.not_mem_nil,
            or_false] at ht
          rcases ht with rfl | rfl | rfl | rfl <;> exact Or.inl rfl
      | ok pose =>
          simp only [estimatePose, hl, he, List.mem_cons, List.not_mem_nil,
            or_false] at ht
          rcases ht with rfl | rfl | rfl | rfl
          · exact Or.inl rfl
          · exact Or.inl rfl
          · exact Or.inr ⟨pose, by simp [expectedPose, hl, he], rfl⟩
          · exact Or.inr ⟨pose, by simp [expectedPose, hl, he], rfl⟩

/-- Poses seen while one event's handler runs. -/
theorem stepEvent_states_poses (load : LoadOracle) (estimate : EstimateOracle)
    (s : UIState) (e : UIEvent) :
    ∀ t ∈ (stepEvent load estimate s e).states,
      t.poses = s.poses ∨
        ∃ img pose, expectedPose load estimate img = some pose ∧
          t.poses = [pose] := by
  intro t ht
  cases e with
  | filesLoaded imgs =>
      simp only [stepEvent, loadImagesAllDecoded] at ht
      split at ht
      · rw [List.mem_cons] at ht
        rcases ht with rfl | ht
        · exact Or.inl rfl
        · rcases estimatePose_states_poses load estimate
              (imgs.getD 0 JSImage.undef) { s with images := imgs } t ht with
            h | ⟨pose, hp, hpos⟩
          · exact Or.inl h
          · exact Or.inr ⟨imgs.getD 0 JSImage.undef, pose, hp, hpos⟩
      · rw [List.mem_singleton] at ht
        subst ht
        exact Or.inl rfl
  | selectImage i =>
      simp only [stepEvent, handleImageSelect] at ht
      rw [List.mem_cons] at ht
      rcases ht with rfl | ht
      · exact Or.inl rfl
      · rcases estimatePose_states_poses load estimate
            (s.images.getD i JSImage.undef) { s with currentImageIndex := i }
            t ht with h | ⟨pose, hp, hpos⟩
        · exact Or.inl h
        · exact Or.inr ⟨s.images.getD i JSImage.undef, pose, hp, hpos⟩
  | preloaded img =>
      simp only [stepEvent, preloadedEffect] at ht
      rw [List.mem_cons] at ht
      rcases ht with rfl | ht
      · exact Or.inl rfl
      · rcases estimatePose_states_poses load estimate img
            { s with images := [img] } t ht with h | ⟨pose, hp, hpos⟩
        · exact Or.inl h
        · exact Or.inr ⟨img, pose, hp, hpos⟩

/-- The run invariant: starting from a state whose poses are empty or
oracle-produced, every state passed through keeps that property. -/
theorem runStates_poses (load : LoadOracle) (estimate : EstimateOracle)
    (evs : List UIEvent) :
    ∀ s : UIState,
      (s.poses = [] ∨
        ∃ img pose, expectedPose load estimate img = some pose ∧
          s.poses = [pose]) →
      ∀ t ∈ runStates load estimate s evs,
        t.poses = [] ∨
          ∃ img pose, expectedPose load estimate img = some pose ∧
            t.poses = [pose] := by
  induction evs with
  | nil =>
      intro s hs t ht
      simp [runStates] at ht
  | cons e es ih =>
      intro s hs t ht
      simp only [runStates] at ht
      rw [List.mem_append] at ht
      have hstep : ∀ u ∈ (stepEvent load estimate s e).states,
          u.poses = [] ∨
            ∃ img pose, expectedPose load estimate img = some pose ∧
              u.poses = [pose] := by
        intro u hu
        rcases stepEvent_states_poses load estimate s e u hu with
          h | ⟨img, pose, hp, hpos⟩
        · rw [h]; exact hs
        · exact Or.inr ⟨img, pose, hp, hpos⟩
      rcases ht with ht | ht
      · exact hstep t ht
      · refine ih ((stepEvent load estimate s e).final s) ?_ t ht
        rcases getLastD_eq_self_or_mem (stepEvent load estimate s e).states s
            with h | h
        · rw [HandlerRun.final, h]; exact hs
        · exact hstep _ h

/-- Counterexample for C2: after uploading two images (inference on the
first succeeds) and then selecting index 1, the component passes through a
reachable state in which inference is in flight (`isLoading = true`) while
the pose result still holds image 0's pose — non-empty and not
corresponding to the selected index 1 — so the spec's displayed-pose
invariant fails at that state. -/
theorem displayedPoseInvariant_counterexample :
    (({ images := [JSImage.img 0 8 6, JSImage.img 1 8 6],
        currentImageIndex := 1,
        poses := [{ keypoints :=
          [{ part := "nose", position := { x := 0, y := 0 }, score := 1 }] }],
        isLoading := true, error := none } : UIState) ∈
      reachableStates loadW estW
        [UIEvent.filesLoaded [JSImage.img 0 8 6, JSImage.img 1 8 6],
         UIEvent.selectImage 1]) ∧
    ¬ displayedPoseInvariant loadW estW
        { images := [JSImage.img 0 8 6, JSImage.img 1 8 6],
          currentImageIndex := 1,
          poses := [{ keypoints :=
            [{ part := "nose", position := { x := 0, y := 0 }, score := 1 }] }],
          isLoading := true, error := none } := by
  decide

/-- C2 (amended): at every reachable state of the component, the pose
result is empty or holds exactly one pose that the inference chain
actually produced for some image; it need not correspond to the currently
selected index — while an inference triggered by a new selection is in
flight (and equally after a failed inference or a re-upload) the previous,
possibly stale, pose result remains. -/
theorem reachable_poses_amended (load : LoadOracle)
    (estimate : EstimateOracle) (evs : List UIEvent) (s : UIState)
    (hs : s ∈ reachableStates load estimate evs) :
    s.poses = [] ∨
      ∃ img pose, expectedPose load estimate img = some pose ∧
        s.poses = [pose] := by
  rw [reachableStates, List.mem_cons] at hs
  rcases hs with rfl | hs
  · exact Or.inl rfl
  · exact runStates_poses load estimate evs initState (Or.inl rfl) s hs

/-- Witness for the amended C2, at the initial state of the empty event
sequence. -/
theorem reachable_poses_amended_witness :
    initState.poses = [] ∨
      ∃ img pose, expectedPose loadW estW img = some pose ∧
        initState.poses = [pose] :=
  reachable_poses_amended loadW estW [] initState (by decide)
